import Mathlib

/-!
Shallow embedding of `src/sample.py` (a three-stage report-generation
pipeline: section planning, per-section research, report compilation)
and proofs about it.

Modelling conventions:
  * Python `str` is Lean `String`; `str.split(sep)` (for the non-empty
    separators `". "` and `"\n"` used by the source) is `pySplit`, a
    fuel-indexed structural re-implementation of Python's non-overlapping
    left-to-right split, written so that the kernel can evaluate it on
    concrete inputs.
  * Python dicts (`summaries`, `references`) are association lists
    `List (String × α)` with Python's assignment semantics: `d[k] = v`
    keeps the original position of an existing key and overwrites its
    value, otherwise appends the new binding (`dinsert`).
  * The external collaborators of §6 of the design (Chat Model Port,
    Web Search Port) are out-of-repo library clients; they are modelled
    as abstract functions returning `Except UpstreamServiceError _`.
    A chat prompt is a constant template with interpolated data, so a
    call is represented by the interpolated data (`ChatCall`) plus the
    sampling configuration used at the call site (`BindOpts`).
  * Python exceptions propagating out of a stage are `Except.error`;
    since the stages mutate the state object in place and the caller
    keeps a reference to it, an error carries the state object as it
    stood when the exception was raised.
-/

/-- Python substring test used to strip a separator at the head of a
character list: `dropSep sep s = some t` iff `s = sep ++ t`. -/
def dropSep : List Char → List Char → Option (List Char)
  | [], s => some s
  | _ :: _, [] => none
  | c :: cs, d :: ds => if c = d then dropSep cs ds else none

/-- Python `s.split(sep)` for a NON-EMPTY `sep`, over character lists:
segments between non-overlapping occurrences of `sep`, scanned left to
right.  `fuel` only forces structural termination: every recursive call
shortens the string by at least one character (because `sep ≠ []`), so
with `fuel = s.length` the two fallback patterns are never reached and
the function computes exactly Python's split. -/
def pySplitGo (sep : List Char) : Nat → List Char → List (List Char)
  | _, [] => [[]]
  | 0, s => [s]
  | fuel + 1, c :: rest =>
    match dropSep sep (c :: rest) with
    | some suffix => [] :: pySplitGo sep fuel suffix
    | none =>
      match pySplitGo sep fuel rest with
      | [] => [[c]]
      | seg :: segs => (c :: seg) :: segs

/-- Python `s.split(sep)` on strings (for the source's non-empty
separators `". "` and `"\n"`). -/
def pySplit (sep s : String) : List String :=
  (pySplitGo sep.toList s.toList.length s.toList).map String.mk

/-- Python `sep in s` for a non-empty `sep`.  For Python, `sep in s`
holds iff `s.split(sep)` has at least two elements (the split has
`1 + number of occurrences` elements), which is the form in which the
source uses the test (line 54 guards the index `[1]` with `". " in line`). -/
def pyContains (sep s : String) : Bool :=
  match pySplit sep s with
  | _ :: _ :: _ => true
  | _ => false

/-- One search hit as returned by the Web Search Port (the source reads
the provider fields `res["name"]` and `res["url"]`, line 79). -/
structure SearchResult where
  name : String
  url : String
deriving DecidableEq, Repr

/-- One normalized reference `{"title": ..., "link": ...}` (line 79). -/
structure Reference where
  title : String
  link : String
deriving DecidableEq, Repr

/-- The pipeline state (`class InputData(BaseModel)`, lines 35-39).
`sections`, `summaries` and `references` start as Python `None`. -/
structure InputData where
  research_theme : String
  sections : Option (List String)
  summaries : Option (List (String × String))
  references : Option (List (String × List Reference))
deriving DecidableEq, Repr

/-- Failure of an LLM or search call (§6/§7 of the design: the ports
fail with `UpstreamServiceError`; the library clients themselves are
out of repo, so the error is abstract). -/
structure UpstreamServiceError where
  msg : String
deriving DecidableEq, Repr

/-- An error propagating out of a pipeline stage: either an upstream
port failure, or the Python `TypeError` raised when the stage touches a
state field that is still `None` (subscripting or iterating `None`). -/
inductive PErr where
  | upstream (e : UpstreamServiceError)
  | noneTypeError
deriving DecidableEq, Repr

/-- The data interpolated into each of the source's four constant chat
prompt templates (the template text itself carries no other
information): section planning (lines 43-49), search keyword generation
(lines 67-73), per-section summarization (lines 82-99, which embeds the
raw `search_results`), and final compilation (lines 109-126, which
embeds the `summaries` mapping). -/
inductive ChatCall where
  | planSections (theme : String)
  | genKeywords (theme : String) (sect : String)
  | summarize (results : List SearchResult)
  | compileReport (summaries : List (String × String))
deriving DecidableEq, Repr

/-- The sampling configuration a chat call is made with: the bare
`model` (planning and keyword calls), or
`model.bind(temperature=0.3, max_tokens=10000)` (summarization and
compilation calls, lines 100 and 127). -/
inductive BindOpts where
  | plain
  | lowTempLongOut
deriving DecidableEq, Repr

/-- The two external collaborators, as abstract fallible functions
(§6): `chat` is the Chat Model Port (prompt data + sampling options to
response text), `search` is the Web Search Port (query and result limit
to hit list). -/
structure Ports where
  chat : ChatCall → BindOpts → Except UpstreamServiceError String
  search : String → Nat → Except UpstreamServiceError (List SearchResult)

/-- Python dict assignment `d[k] = v`: overwrite in place if the key
exists (keeping its position), else append. -/
def dinsert (k : String) (v : α) : List (String × α) → List (String × α)
  | [] => [(k, v)]
  | (k', v') :: rest => if k' = k then (k, v) :: rest else (k', v') :: dinsert k v rest

/-- Key list of a dict. -/
def dkeys (d : List (String × α)) : List String :=
  d.map Prod.fst

/-- Python `d[k]` / `d.get(k)`: value at the first (unique) binding of `k`. -/
def dlookup (k : String) : List (String × α) → Option α
  | [] => none
  | (k', v) :: rest => if k' = k then some v else dlookup k rest

/-- Line 54, per line: `line.split(". ")[1]` under the guard
`". " in line`.  The guard holds exactly when the split has at least
two elements, so the accepted title is the element at index 1 of the
split — the segment strictly between the first and the second
occurrence of `". "` (or everything after the first occurrence when it
is the only one). -/
def parse_line (line : String) : Option String :=
  match pySplit ". " line with
  | _ :: t :: _ => some t
  | _ => none

/-- Line 54: `[line.split(". ")[1] for line in response.split("\n") if ". " in line]`. -/
def parse_sections (response : String) : List String :=
  (pySplit "\n" response).filterMap parse_line

/-- The planner's fixed fallback section list (line 55). -/
def default_sections : List String :=
  ["概要", "詳細分析", "結論"]

/-- `generate_sections` (lines 42-56): one chat call with the planning
prompt, parse the response line by line, fall back to the default list
when parsing yields no titles, store the result in `state.sections`. -/
def generate_sections (ports : Ports) (state : InputData) :
    Except (PErr × InputData) InputData :=
  match ports.chat (ChatCall.planSections state.research_theme) BindOpts.plain with
  | Except.error e => Except.error (PErr.upstream e, state)
  | Except.ok response =>
    let sections := parse_sections response
    Except.ok { state with
      sections := some (if sections.isEmpty then default_sections else sections) }

/-- The body of the loop in `process_section` (lines 63-101) for one
section title: keyword-generation chat call, search call with
`num_results=10`, normalization of the hits to `{title, link}`
references, then the summarization chat call on the raw search results
with the lowered-randomness configuration.  Returns the reference list
and the summary for that section. -/
def process_one (ports : Ports) (theme sect : String) :
    Except UpstreamServiceError (List Reference × String) :=
  match ports.chat (ChatCall.genKeywords theme sect) BindOpts.plain with
  | Except.error e => Except.error e
  | Except.ok keywords =>
    match ports.search keywords 10 with
    | Except.error e => Except.error e
    | Except.ok search_results =>
      let refs := search_results.map (fun r => { title := r.name, link := r.url : Reference })
      match ports.chat (ChatCall.summarize search_results) BindOpts.lowTempLongOut with
      | Except.error e => Except.error e
      | Except.ok summary => Except.ok (refs, summary)

/-- The loop of `process_section` (lines 60-101): fold `process_one`
over the section list in sequence order, accumulating the two
stage-local dicts `summaries` and `references`. -/
def process_loop (ports : Ports) (theme : String) :
    List String → List (String × String) → List (String × List Reference) →
    Except UpstreamServiceError (List (String × String) × List (String × List Reference))
  | [], summaries, references => Except.ok (summaries, references)
  | sect :: rest, summaries, references =>
    match process_one ports theme sect with
    | Except.error e => Except.error e
    | Except.ok (refs, summary) =>
      process_loop ports theme rest (dinsert sect summary summaries) (dinsert sect refs references)

/-- `process_section` (lines 59-105): iterate over `state.sections`
(iterating Python `None` raises `TypeError`), then write the two
stage-local dicts into the state — only after every section has
completed (lines 103-104). -/
def process_section (ports : Ports) (state : InputData) :
    Except (PErr × InputData) InputData :=
  match state.sections with
  | none => Except.error (PErr.noneTypeError, state)
  | some secs =>
    match process_loop ports state.research_theme secs [] [] with
    | Except.error e => Except.error (PErr.upstream e, state)
    | Except.ok (summaries, references) =>
      Except.ok { state with summaries := some summaries, references := some references }

/-- `compile_report` (lines 108-129): one chat call with the
compilation prompt embedding the whole `summaries` mapping
(subscripting Python `None` raises `TypeError`), then
`state.summaries["final_report"] = ...`. -/
def compile_report (ports : Ports) (state : InputData) :
    Except (PErr × InputData) InputData :=
  match state.summaries with
  | none => Except.error (PErr.noneTypeError, state)
  | some summaries =>
    match ports.chat (ChatCall.compileReport summaries) BindOpts.lowTempLongOut with
    | Except.error e => Except.error (PErr.upstream e, state)
    | Except.ok report =>
      Except.ok { state with summaries := some (dinsert "final_report" report summaries) }

/-- The three pipeline stages, for the execution trace. -/
inductive StageName where
  | planner
  | researcher
  | compiler
deriving DecidableEq, Repr

/-- The initial state built by the caller (line 149):
`InputData(research_theme=research_theme)` — only the theme populated. -/
def initState (theme : String) : InputData :=
  { research_theme := theme, sections := none, summaries := none, references := none }

/-- The compiled workflow (lines 132-141): the fixed chain
`generate_sections → process_section → compile_report` threading the
state, an exception at any stage aborting the run.  Alongside the
result it returns the execution trace: each stage that is entered,
paired with the state it is entered with. -/
def runT (ports : Ports) (theme : String) :
    Except (PErr × InputData) InputData × List (StageName × InputData) :=
  let s0 := initState theme
  match generate_sections ports s0 with
  | Except.error e => (Except.error e, [(StageName.planner, s0)])
  | Except.ok s1 =>
    match process_section ports s1 with
    | Except.error e => (Except.error e, [(StageName.planner, s0), (StageName.researcher, s1)])
    | Except.ok s2 =>
      match compile_report ports s2 with
      | Except.error e =>
        (Except.error e,
         [(StageName.planner, s0), (StageName.researcher, s1), (StageName.compiler, s2)])
      | Except.ok s3 =>
        (Except.ok s3,
         [(StageName.planner, s0), (StageName.researcher, s1), (StageName.compiler, s2)])

/-- `workflow.invoke(input_data)` (line 150): the run's result alone. -/
def run (ports : Ports) (theme : String) : Except (PErr × InputData) InputData :=
  (runT ports theme).fst

/-- Ports whose chat calls all return the fixed string `r` and whose
searches all return no hits. -/
def constPorts (r : String) : Ports :=
  { chat := fun _ _ => Except.ok r, search := fun _ _ => Except.ok [] }

/-- Ports whose every call fails upstream. -/
def failPorts : Ports :=
  { chat := fun _ _ => Except.error { msg := "boom" },
    search := fun _ _ => Except.error { msg := "boom" } }

/-- Ports that fail upstream exactly on the keyword-generation call for
the section `"B"` and succeed everywhere else (used to fail the
research loop at its last section). -/
def lastFailPorts : Ports :=
  { chat := fun c _ =>
      match c with
      | ChatCall.genKeywords _ s =>
        if s = "B" then Except.error { msg := "boom" } else Except.ok "kw"
      | _ => Except.ok "r",
    search := fun _ _ => Except.ok [] }

/-- A state as the researcher receives it: one planned section. -/
def exStOne : InputData :=
  { research_theme := "t", sections := some ["A"], summaries := none, references := none }

/-- The state `process_section (constPorts "r")` makes of `exStOne`. -/
def exStOneOut : InputData :=
  { research_theme := "t", sections := some ["A"],
    summaries := some [("A", "r")], references := some [("A", [])] }

/-- A researcher input whose section list contains a duplicate title. -/
def exStDup : InputData :=
  { research_theme := "t", sections := some ["A", "A"], summaries := none, references := none }

/-- The state `process_section (constPorts "r")` makes of `exStDup`:
the duplicate titles collapse to a single dict entry. -/
def exStDupOut : InputData :=
  { research_theme := "t", sections := some ["A", "A"],
    summaries := some [("A", "r")], references := some [("A", [])] }

/-- A researcher input with two sections, for a failure at the last one. -/
def exStTwo : InputData :=
  { research_theme := "t", sections := some ["A", "B"], summaries := none, references := none }

/-- A state as the compiler receives it from the researcher. -/
def exStResearched : InputData :=
  { research_theme := "t", sections := some ["A"],
    summaries := some [("A", "s")], references := some [("A", [])] }

/-- The state `compile_report (constPorts "")` makes of `exStResearched`:
the compiled report is stored even though the model returned the empty
string. -/
def exStCompiledEmpty : InputData :=
  { research_theme := "t", sections := some ["A"],
    summaries := some [("A", "s"), ("final_report", "")], references := some [("A", [])] }

/-- The final state of a full happy-path run of `constPorts "1. A"`
on the theme `"t"`. -/
def happyOut : InputData :=
  { research_theme := "t", sections := some ["A"],
    summaries := some [("A", "1. A"), ("final_report", "1. A")],
    references := some [("A", [])] }

/-- Join a list of segments back with a separator (`sep.join(parts)`).
Because `pySplit sep s` is the list of segments between the
non-overlapping occurrences of `sep`, rejoining the tail of the split
recovers exactly the text after the first occurrence of `sep` in `s`. -/
def joinSep (sep : String) : List String → String
  | [] => ""
  | [a] => a
  | a :: b :: rest => a ++ sep ++ joinSep sep (b :: rest)

/-- The claim C1 reading of line 54, following the spec's words rather
than the source: the accepted title is the ENTIRE text after the first
occurrence of `". "` in the line. -/
def spec_title_after_first (line : String) : Option String :=
  match pySplit ". " line with
  | _ :: t :: rest => some (joinSep ". " (t :: rest))
  | _ => none

/-- A line is accepted by line 54 exactly when it contains `". "`. -/
theorem parse_line_isSome_iff (line : String) :
    (parse_line line).isSome = pyContains ". " line := by
  unfold parse_line pyContains
  rcases pySplit ". " line with _ | ⟨a, _ | ⟨b, rest⟩⟩ <;> rfl

/-- Filtering by the acceptance test of a partial map does not change
its `filterMap`. -/
theorem filterMap_filter_isSome {α β : Type} (f : α → Option β) (p : α → Bool)
    (hp : ∀ a, (f a).isSome = p a) (ls : List α) :
    (ls.filter p).filterMap f = ls.filterMap f := by
  induction ls with
  | nil => rfl
  | cons a t ih =>
    cases hpa : p a with
    | false =>
      have hfa : f a = none := by
        have := hp a
        rw [hpa] at this
        exact Option.not_isSome_iff_eq_none.mp (by simp [this])
      simp [List.filter_cons, List.filterMap_cons, hpa, hfa, ih]
    | true =>
      have hfa : (f a).isSome := by rw [hp a, hpa]
      obtain ⟨b, hb⟩ := Option.isSome_iff_exists.mp hfa
      simp [List.filter_cons, List.filterMap_cons, hpa, hb, ih]

/-- If no line of the response contains the delimiter, parsing yields
no titles. -/
theorem parse_sections_eq_nil (response : String)
    (h : (pySplit "\n" response).filter (fun l => pyContains ". " l) = []) :
    parse_sections response = [] := by
  unfold parse_sections
  rw [← filterMap_filter_isSome parse_line (fun l => pyContains ". " l)
        (fun l => parse_line_isSome_iff l), h]
  rfl

/-- Claim C1 (corrected), counterexample to the claim as stated: on the
line `"1. A. B"` the code accepts the title `"A"` (the segment between
the first and second `". "`), not the entire text `"A. B"` after the
first `". "` as the claim says. -/
theorem planner_title_counterexample :
    parse_line "1. A. B" = some "A" ∧
    spec_title_after_first "1. A. B" = some "A. B" ∧
    ("A" : String) ≠ "A. B" :=
  ⟨by decide, by decide, by decide⟩

/-- Claim C1 (amended): a line is accepted as a section title exactly
when it contains `". "`, and the accepted title is the text after the
first occurrence of `". "` truncated at the next occurrence of `". "`
when there is one (equivalently, the segment of the `". "`-split at
index 1). -/
theorem planner_title_between_delims (line : String) :
    ((parse_line line).isSome ↔ pyContains ". " line = true) ∧
    (∀ t, parse_line line = some t →
      ∃ u, spec_title_after_first line = some u ∧
        (u = t ∨ ∃ v, u = t ++ ". " ++ v)) := by
  constructor
  · rw [parse_line_isSome_iff]
  · intro t ht
    unfold parse_line at ht
    unfold spec_title_after_first
    rcases h : pySplit ". " line with _ | ⟨a, _ | ⟨b, rest⟩⟩ <;> rw [h] at ht <;> simp at ht
    subst ht
    cases rest with
    | nil => exact ⟨b, rfl, Or.inl rfl⟩
    | cons c cs => exact ⟨joinSep ". " (b :: c :: cs), rfl, Or.inr ⟨joinSep ". " (c :: cs), rfl⟩⟩

/-- Witness for C1 (amended) at the line `"1. A. B"`. -/
theorem planner_title_between_delims_witness :
    ∃ u, spec_title_after_first "1. A. B" = some u ∧
      (u = "A" ∨ ∃ v, u = "A" ++ ". " ++ v) :=
  (planner_title_between_delims "1. A. B").2 "A" (by decide)

/-- Claim C9: a response whose delimiter-containing lines are exactly
`"1. A"`, `"2. B"`, `"3. C"` in that order (interleaved with any lines
not containing `". "`) parses to exactly `["A", "B", "C"]`. -/
theorem planner_parsing_interleaved (response : String)
    (h : (pySplit "\n" response).filter (fun l => pyContains ". " l)
           = ["1. A", "2. B", "3. C"]) :
    parse_sections response = ["A", "B", "C"] := by
  unfold parse_sections
  rw [← filterMap_filter_isSome parse_line (fun l => pyContains ". " l)
        (fun l => parse_line_isSome_iff l), h]
  decide

/-- Witness for C9 at a concrete interleaved response. -/
theorem planner_parsing_interleaved_witness :
    parse_sections "intro\n1. A\n2. B\nnoise\n3. C" = ["A", "B", "C"] :=
  planner_parsing_interleaved "intro\n1. A\n2. B\nnoise\n3. C" (by decide)

/-- Claim C4: whenever the planning chat call succeeds, the planner
leaves a non-empty `state.sections`; and if no line of the response
contains `". "` (so parsing yields zero titles), `state.sections` is
exactly the fixed 3-item default sequence. -/
theorem planner_fallback (ports : Ports) (st : InputData) (response : String)
    (hchat : ports.chat (ChatCall.planSections st.research_theme) BindOpts.plain
               = Except.ok response) :
    (∃ st', generate_sections ports st = Except.ok st' ∧
      ∃ secs, st'.sections = some secs ∧ secs ≠ []) ∧
    ((pySplit "\n" response).filter (fun l => pyContains ". " l) = [] →
      generate_sections ports st = Except.ok { st with sections := some default_sections }) := by
  constructor
  · unfold generate_sections
    rw [hchat]
    refine ⟨_, rfl, _, rfl, ?_⟩
    cases hpe : (parse_sections response).isEmpty with
    | false => simp [hpe, ← List.isEmpty_iff]
    | true => simp [hpe, default_sections]
  · intro hnone
    have hp : parse_sections response = [] := parse_sections_eq_nil response hnone
    unfold generate_sections
    rw [hchat]
    simp [hp]

/-- Witness for C4: a response with no delimiter in any line makes the
planner fall back to the default sections. -/
theorem planner_fallback_witness :
    generate_sections (constPorts "plain text") (initState "t") =
      Except.ok { initState "t" with sections := some default_sections } :=
  (planner_fallback (constPorts "plain text") (initState "t") "plain text" rfl).2 (by decide)

/-- Key list after a Python dict assignment: the keys are unchanged
when the key already exists, else the new key is appended. -/
theorem dkeys_dinsert {α : Type} (k : String) (v : α) (d : List (String × α)) :
    dkeys (dinsert k v d) = if k ∈ dkeys d then dkeys d else dkeys d ++ [k] := by
  induction d with
  | nil => simp [dinsert, dkeys]
  | cons p rest ih =>
    obtain ⟨k', v'⟩ := p
    by_cases h : k' = k
    · subst h
      simp [dinsert, dkeys]
    · have hne : ¬ (k = k') := fun hh => h hh.symm
      simp only [dinsert, if_neg h, dkeys, List.map_cons]
      simp only [dkeys] at ih
      rw [ih]
      by_cases hm : k ∈ List.map Prod.fst rest
      · simp [hm, hne]
      · simp [hm, hne, List.cons_append]

/-- A Python dict assignment adds exactly its key to the key set. -/
theorem dkeys_dinsert_toFinset {α : Type} (k : String) (v : α) (d : List (String × α)) :
    (dkeys (dinsert k v d)).toFinset = insert k (dkeys d).toFinset := by
  rw [dkeys_dinsert]
  by_cases h : k ∈ dkeys d
  · simp [h, List.mem_toFinset.mpr h, Finset.insert_eq_self]
  · simp [h, List.toFinset_append, Finset.insert_eq, Finset.union_comm]

/-- Python dict keys stay duplicate-free under assignment. -/
theorem nodup_dkeys_dinsert {α : Type} (k : String) (v : α) (d : List (String × α))
    (hd : (dkeys d).Nodup) : (dkeys (dinsert k v d)).Nodup := by
  rw [dkeys_dinsert]
  by_cases h : k ∈ dkeys d
  · simpa [h] using hd
  · simp [h, List.nodup_append, hd]

/-- Two dicts with the same key list keep the same key list under
paired assignments to the same key. -/
theorem dkeys_dinsert_pair {α β : Type} (k : String) (v₁ : α) (v₂ : β)
    (d₁ : List (String × α)) (d₂ : List (String × β)) (h : dkeys d₁ = dkeys d₂) :
    dkeys (dinsert k v₁ d₁) = dkeys (dinsert k v₂ d₂) := by
  rw [dkeys_dinsert, dkeys_dinsert, h]

/-- A dict lookup succeeds exactly on the listed keys. -/
theorem dlookup_isSome_iff {α : Type} (k : String) (d : List (String × α)) :
    (dlookup k d).isSome ↔ k ∈ dkeys d := by
  induction d with
  | nil => simp [dlookup, dkeys]
  | cons p rest ih =>
    obtain ⟨k', v'⟩ := p
    by_cases h : k' = k
    · subst h
      simp [dlookup, dkeys]
    · have hne : ¬ k = k' := fun hh => h hh.symm
      simp [dlookup, dkeys, h, hne, ih]

/-- Looking up the assigned key finds the assigned value. -/
theorem dlookup_dinsert_self {α : Type} (k : String) (v : α) (d : List (String × α)) :
    dlookup k (dinsert k v d) = some v := by
  induction d with
  | nil => simp [dinsert, dlookup]
  | cons p rest ih =>
    obtain ⟨k', v'⟩ := p
    by_cases h : k' = k
    · subst h
      simp [dinsert, dlookup]
    · simp [dinsert, dlookup, h, ih]

/-- Assigning one key leaves every other key's value unchanged. -/
theorem dlookup_dinsert_ne {α : Type} (k k' : String) (v : α) (d : List (String × α))
    (h : k' ≠ k) : dlookup k' (dinsert k v d) = dlookup k' d := by
  have hne : ¬ (k = k') := fun hh => h hh.symm
  induction d with
  | nil => simp [dinsert, dlookup, hne]
  | cons p rest ih =>
    obtain ⟨k'', v''⟩ := p
    by_cases hk : k'' = k
    · subst hk
      simp [dinsert, dlookup, hne]
    · simp [dinsert, dlookup, hk, ih]

/-- Invariant of the research loop: starting from two stage-local dicts
with a common, duplicate-free key list, a successful pass over the
section list keeps the key lists of `summaries` and `references` equal
and duplicate-free, and extends the common key set by exactly the
processed section titles. -/
theorem process_loop_keys (ports : Ports) (theme : String) :
    ∀ (secs : List String) (sm : List (String × String))
      (rf : List (String × List Reference))
      (sm' : List (String × String)) (rf' : List (String × List Reference)),
      process_loop ports theme secs sm rf = Except.ok (sm', rf') →
      dkeys sm = dkeys rf →
      (dkeys sm).Nodup →
      dkeys sm' = dkeys rf' ∧ (dkeys sm').Nodup ∧
        (dkeys sm').toFinset = (dkeys sm).toFinset ∪ secs.toFinset := by
  intro secs
  induction secs with
  | nil =>
    intro sm rf sm' rf' hok hkeys hnd
    unfold process_loop at hok
    simp at hok
    obtain ⟨h1, h2⟩ := hok
    subst h1
    subst h2
    simpa [hkeys] using hnd
  | cons s rest ih =>
    intro sm rf sm' rf' hok hkeys hnd
    unfold process_loop at hok
    cases hpo : process_one ports theme s with
    | error e =>
      rw [hpo] at hok
      cases hok
    | ok pr =>
      obtain ⟨refs, summary⟩ := pr
      rw [hpo] at hok
      obtain ⟨hk, hn, hfs⟩ :=
        ih (dinsert s summary sm) (dinsert s refs rf) sm' rf' hok
          (dkeys_dinsert_pair s summary refs sm rf hkeys)
          (nodup_dkeys_dinsert s summary sm hnd)
      refine ⟨hk, hn, ?_⟩
      rw [hfs, dkeys_dinsert_toFinset]
      simp [List.toFinset_cons, Finset.insert_union, Finset.union_insert]

/-- A failing `process_section` leaves the state object exactly as it
was: the stage-local dicts are written to the state only after every
section has completed (lines 103-104). -/
theorem process_section_error_state (ports : Ports) (st : InputData) (pe : PErr)
    (st' : InputData) (h : process_section ports st = Except.error (pe, st')) :
    st' = st := by
  unfold process_section at h
  split at h
  · simp at h
    exact h.2.symm
  · split at h
    · simp at h
      exact h.2.symm
    · cases h

/-- A successful `process_section` populates `summaries` and
`references` with a common, duplicate-free key list whose key set is
exactly the set of section titles, and touches nothing else. -/
theorem process_section_ok (ports : Ports) (st st' : InputData)
    (h : process_section ports st = Except.ok st') :
    ∃ secs sm rf, st.sections = some secs ∧
      st'.summaries = some sm ∧ st'.references = some rf ∧
      st'.sections = st.sections ∧ st'.research_theme = st.research_theme ∧
      dkeys sm = dkeys rf ∧ (dkeys sm).Nodup ∧ (dkeys sm).toFinset = secs.toFinset := by
  unfold process_section at h
  split at h
  · cases h
  · rename_i secs hs
    split at h
    · cases h
    · rename_i sm rf hl
      obtain ⟨hk, hn, hfs⟩ :=
        process_loop_keys ports st.research_theme secs [] [] sm rf hl rfl (by simp [dkeys])
      injection h with h1
      subst h1
      exact ⟨secs, sm, rf, hs, rfl, rfl, rfl, rfl, hk, hn, by simpa [dkeys] using hfs⟩

/-- Claim C2: for a non-empty planned section list, a successful
research stage leaves `summaries` and `references` with the same key
set, equal to the set of section titles (no `"final_report"` key has
been added yet — that is the compiler's doing). -/
theorem researcher_key_parity (ports : Ports) (st : InputData) (secs : List String)
    (st' : InputData) (hsec : st.sections = some secs) (_hne : secs ≠ [])
    (hok : process_section ports st = Except.ok st') :
    ∃ sm rf, st'.summaries = some sm ∧ st'.references = some rf ∧
      dkeys sm = dkeys rf ∧ (dkeys sm).toFinset = secs.toFinset := by
  obtain ⟨secs', sm, rf, hs', hsm, hrf, _, _, hk, _, hfs⟩ := process_section_ok ports st st' hok
  rw [hsec] at hs'
  injection hs' with hss
  subst hss
  exact ⟨sm, rf, hsm, hrf, hk, hfs⟩

/-- Witness for C2 on a one-section state with constant ports. -/
theorem researcher_key_parity_witness :
    ∃ sm rf, exStOneOut.summaries = some sm ∧ exStOneOut.references = some rf ∧
      dkeys sm = dkeys rf ∧ (dkeys sm).toFinset = (["A"] : List String).toFinset :=
  researcher_key_parity (constPorts "r") exStOne ["A"] exStOneOut rfl (by decide) rfl

/-- Claim C8 (corrected), counterexample to the claim as stated: for
the duplicate section list `["A", "A"]` the research stage produces
ONE dict entry, not one entry per entry of `state.sections`. -/
theorem researcher_entry_count_counterexample :
    process_section (constPorts "r") exStDup = Except.ok exStDupOut ∧
    exStDupOut.summaries = some [("A", "r")] ∧
    ([("A", "r")] : List (String × String)).length ≠ (["A", "A"] : List String).length :=
  ⟨rfl, rfl, by decide⟩

/-- Claim C8 (amended): after a successful research stage, `summaries`
and `references` hold exactly one entry per DISTINCT title of
`state.sections` (duplicate titles collapse into a single entry), the
two key lists coincide, and every listed section title has an entry in
both; the sections are processed in sequence order by the loop. -/
theorem researcher_one_entry_per_distinct_title (ports : Ports) (st : InputData)
    (secs : List String) (st' : InputData) (hsec : st.sections = some secs)
    (hok : process_section ports st = Except.ok st') :
    ∃ sm rf, st'.summaries = some sm ∧ st'.references = some rf ∧
      dkeys sm = dkeys rf ∧ (dkeys sm).Nodup ∧
      (dkeys sm).toFinset = secs.toFinset ∧
      (∀ s ∈ secs, (dlookup s sm).isSome ∧ (dlookup s rf).isSome) := by
  obtain ⟨secs', sm, rf, hs', hsm, hrf, _, _, hk, hn, hfs⟩ := process_section_ok ports st st' hok
  rw [hsec] at hs'
  injection hs' with hss
  subst hss
  refine ⟨sm, rf, hsm, hrf, hk, hn, hfs, ?_⟩
  intro s hsmem
  have hmem : s ∈ dkeys sm := by
    rw [← List.mem_toFinset, hfs, List.mem_toFinset]
    exact hsmem
  exact ⟨(dlookup_isSome_iff s sm).mpr hmem, (dlookup_isSome_iff s rf).mpr (hk ▸ hmem)⟩

/-- Witness for C8 (amended) on the duplicate-title state. -/
theorem researcher_one_entry_per_distinct_title_witness :
    ∃ sm rf, exStDupOut.summaries = some sm ∧ exStDupOut.references = some rf ∧
      dkeys sm = dkeys rf ∧ (dkeys sm).Nodup ∧
      (dkeys sm).toFinset = (["A", "A"] : List String).toFinset ∧
      (∀ s ∈ (["A", "A"] : List String), (dlookup s sm).isSome ∧ (dlookup s rf).isSome) :=
  researcher_one_entry_per_distinct_title (constPorts "r") exStDup ["A", "A"] exStDupOut rfl rfl

/-- Claim C6: an empty search result set is not an error.  When the
keyword call succeeds, the search returns no hits and the summarization
call succeeds, the loop body stores the empty reference list for the
section and still runs the summarization on the empty evidence set; in
a one-section state, the stage then records `references[s] = []`
together with the summary. -/
theorem researcher_empty_evidence (ports : Ports) (theme sect kw t : String)
    (hkw : ports.chat (ChatCall.genKeywords theme sect) BindOpts.plain = Except.ok kw)
    (hsearch : ports.search kw 10 = Except.ok [])
    (hsum : ports.chat (ChatCall.summarize []) BindOpts.lowTempLongOut = Except.ok t) :
    process_one ports theme sect = Except.ok ([], t) ∧
    (∀ st st', st.research_theme = theme → st.sections = some [sect] →
      process_section ports st = Except.ok st' →
      st'.references = some [(sect, [])] ∧ st'.summaries = some [(sect, t)]) := by
  have hone : process_one ports theme sect = Except.ok ([], t) := by
    unfold process_one
    simp [hkw, hsearch, hsum]
  refine ⟨hone, ?_⟩
  intro st st' hth hsec hok
  have hloop : process_loop ports theme [sect] [] [] =
      Except.ok ([(sect, t)], [(sect, [])]) := by
    unfold process_loop
    rw [hone]
    rfl
  unfold process_section at hok
  rw [hsec, hth] at hok
  simp only [hloop, Except.ok.injEq] at hok
  subst hok
  exact ⟨rfl, rfl⟩

/-- Witness for C6: constant ports whose search returns no hits. -/
theorem researcher_empty_evidence_witness :
    exStOneOut.references = some [("A", [])] ∧ exStOneOut.summaries = some [("A", "r")] :=
  (researcher_empty_evidence (constPorts "r") "t" "A" "r" "r" rfl rfl rfl).2
    exStOne exStOneOut rfl rfl rfl

/-- Claim C10: the research stage is atomic with respect to failure —
if it fails (at any call, in any section), the `summaries` and
`references` fields of the state it hands back are still `None`: the
per-section results only ever live in stage-local dicts that are
written to the state after the loop has completed. -/
theorem researcher_failure_atomic (ports : Ports) (st : InputData) (pe : PErr)
    (st' : InputData) (hsum : st.summaries = none) (href : st.references = none)
    (herr : process_section ports st = Except.error (pe, st')) :
    st'.summaries = none ∧ st'.references = none := by
  have h := process_section_error_state ports st pe st' herr
  subst h
  exact ⟨hsum, href⟩

/-- Witness for C10: ports failing exactly at the last section's
keyword call; the first section's computed summary and references are
not visible in the state carried out of the failed run. -/
theorem researcher_failure_atomic_witness :
    exStTwo.summaries = none ∧ exStTwo.references = none :=
  researcher_failure_atomic lastFailPorts exStTwo
    (PErr.upstream { msg := "boom" }) exStTwo rfl rfl rfl

/-- The planner's stored list — parsed titles, or the default on an
empty parse — is never empty. -/
theorem plan_choice_ne_nil (l : List String) :
    (if l.isEmpty then default_sections else l) ≠ [] := by
  cases h : l.isEmpty with
  | true => simp [default_sections]
  | false =>
    simp only [h, Bool.false_eq_true, if_false]
    exact fun hnil => by simp [hnil] at h

/-- A failing `generate_sections` fails with an upstream error and
leaves the state object untouched. -/
theorem generate_sections_error (ports : Ports) (st : InputData) (pe : PErr)
    (st' : InputData) (h : generate_sections ports st = Except.error (pe, st')) :
    (∃ e, pe = PErr.upstream e) ∧ st' = st := by
  unfold generate_sections at h
  split at h
  · rename_i e hc
    simp at h
    exact ⟨⟨e, h.1.symm⟩, h.2.symm⟩
  · simp at h

/-- A successful `generate_sections` sets a non-empty section list and
touches nothing else. -/
theorem generate_sections_ok (ports : Ports) (st st' : InputData)
    (h : generate_sections ports st = Except.ok st') :
    (∃ secs, st'.sections = some secs ∧ secs ≠ []) ∧
    st'.research_theme = st.research_theme ∧
    st'.summaries = st.summaries ∧ st'.references = st.references := by
  unfold generate_sections at h
  split at h
  · cases h
  · simp only [Except.ok.injEq] at h
    subst h
    exact ⟨⟨_, rfl, plan_choice_ne_nil _⟩, rfl, rfl, rfl⟩

/-- When the section list is set, a failing `process_section` fails
with an upstream error. -/
theorem process_section_error_upstream (ports : Ports) (st : InputData)
    (secs : List String) (pe : PErr) (st' : InputData)
    (hs : st.sections = some secs)
    (h : process_section ports st = Except.error (pe, st')) :
    ∃ e, pe = PErr.upstream e := by
  unfold process_section at h
  split at h
  · rename_i hnone
    rw [hs] at hnone
    cases hnone
  · split at h
    · rename_i e hl
      simp at h
      exact ⟨e, h.1.symm⟩
    · cases h

/-- A successful `compile_report` is one successful chat call on the
stored summaries followed by the single dict assignment
`summaries["final_report"] = response`. -/
theorem compile_report_ok (ports : Ports) (st st' : InputData)
    (h : compile_report ports st = Except.ok st') :
    ∃ sm t, st.summaries = some sm ∧
      ports.chat (ChatCall.compileReport sm) BindOpts.lowTempLongOut = Except.ok t ∧
      st' = { st with summaries := some (dinsert "final_report" t sm) } := by
  unfold compile_report at h
  split at h
  · cases h
  · rename_i sm hm
    split at h
    · cases h
    · rename_i t hc
      simp only [Except.ok.injEq] at h
      exact ⟨sm, t, hm, hc, h.symm⟩

/-- When the summaries dict is set, a failing `compile_report` fails
with an upstream error. -/
theorem compile_report_error_upstream (ports : Ports) (st : InputData)
    (sm : List (String × String)) (pe : PErr) (st' : InputData)
    (hm : st.summaries = some sm)
    (h : compile_report ports st = Except.error (pe, st')) :
    ∃ e, pe = PErr.upstream e := by
  unfold compile_report at h
  split at h
  · rename_i hnone
    rw [hm] at hnone
    cases hnone
  · split at h
    · rename_i e hc
      simp at h
      exact ⟨e, h.1.symm⟩
    · cases h

/-- Claim C5 (amended): after a successful compile, `theme`, `sections`
and `references` are unchanged; `summaries["final_report"]` holds
exactly the Chat Model Port's response to the compile prompt (so it is
non-empty precisely when that response is); `"final_report"` is the
only key added to `summaries`, and the value at every other key is
unchanged. -/
theorem compiler_frame (ports : Ports) (st st' : InputData)
    (h : compile_report ports st = Except.ok st') :
    st'.research_theme = st.research_theme ∧ st'.sections = st.sections ∧
    st'.references = st.references ∧
    ∃ sm t, st.summaries = some sm ∧
      ports.chat (ChatCall.compileReport sm) BindOpts.lowTempLongOut = Except.ok t ∧
      st'.summaries = some (dinsert "final_report" t sm) ∧
      dlookup "final_report" (dinsert "final_report" t sm) = some t ∧
      (∀ k, k ≠ "final_report" → dlookup k (dinsert "final_report" t sm) = dlookup k sm) ∧
      (dkeys (dinsert "final_report" t sm)).toFinset
        = insert "final_report" (dkeys sm).toFinset := by
  obtain ⟨sm, t, hm, hc, hst⟩ := compile_report_ok ports st st' h
  subst hst
  exact ⟨rfl, rfl, rfl, sm, t, hm, hc, rfl,
    dlookup_dinsert_self _ _ _,
    fun k hk => dlookup_dinsert_ne _ _ _ _ hk,
    dkeys_dinsert_toFinset _ _ _⟩

/-- Claim C5 (corrected), counterexample to the claim as stated: when
the model's compile response is the empty string, the code stores the
empty string under `"final_report"`, so `summaries["final_report"]` is
NOT a non-empty string. -/
theorem compiler_nonempty_counterexample :
    compile_report (constPorts "") exStResearched = Except.ok exStCompiledEmpty ∧
    exStCompiledEmpty.summaries = some [("A", "s"), ("final_report", "")] ∧
    ¬ ∃ t, dlookup "final_report" [("A", "s"), ("final_report", "")] = some t ∧ t ≠ "" := by
  refine ⟨rfl, rfl, ?_⟩
  rintro ⟨t, ht, hne⟩
  exact hne (Option.some.inj ht).symm

/-- Witness for C5 (amended) on a concrete successful compile. -/
theorem compiler_frame_witness :
    exStCompiledEmpty.research_theme = exStResearched.research_theme ∧
    exStCompiledEmpty.sections = exStResearched.sections ∧
    exStCompiledEmpty.references = exStResearched.references ∧
    ∃ sm t, exStResearched.summaries = some sm ∧
      (constPorts "").chat (ChatCall.compileReport sm) BindOpts.lowTempLongOut = Except.ok t ∧
      exStCompiledEmpty.summaries = some (dinsert "final_report" t sm) ∧
      dlookup "final_report" (dinsert "final_report" t sm) = some t ∧
      (∀ k, k ≠ "final_report" → dlookup k (dinsert "final_report" t sm) = dlookup k sm) ∧
      (dkeys (dinsert "final_report" t sm)).toFinset
        = insert "final_report" (dkeys sm).toFinset :=
  compiler_frame (constPorts "") exStResearched exStCompiledEmpty rfl

/-- Claim C3: every failing run fails with an upstream error (the
caller sees `UpstreamServiceError`), and no stage after the failing one
is entered — a planner failure leaves the trace at the planner alone
(research and compilation skipped), a research failure leaves it at
planner and researcher (compilation skipped). -/
theorem run_failure_propagation (ports : Ports) (theme : String) (pe : PErr)
    (stp : InputData) (tr : List (StageName × InputData))
    (h : runT ports theme = (Except.error (pe, stp), tr)) :
    (∃ e, pe = PErr.upstream e) ∧
    ((∃ e s, generate_sections ports (initState theme) = Except.error (e, s)) →
      tr.map Prod.fst = [StageName.planner]) ∧
    (∀ st₁, generate_sections ports (initState theme) = Except.ok st₁ →
      (∃ e s, process_section ports st₁ = Except.error (e, s)) →
      tr.map Prod.fst = [StageName.planner, StageName.researcher]) := by
  cases hg : generate_sections ports (initState theme) with
  | error ep =>
    obtain ⟨pe₀, st₀⟩ := ep
    simp only [runT, hg] at h
    injection h with h1 h2
    injection h1 with h3
    injection h3 with h4 h5
    subst h4
    subst h2
    obtain ⟨⟨e, he⟩, _⟩ := generate_sections_error ports (initState theme) pe₀ st₀ hg
    refine ⟨⟨e, he⟩, fun _ => rfl, ?_⟩
    intro st₁ hok
    exact Except.noConfusion hok
  | ok s₁ =>
    cases hp : process_section ports s₁ with
    | error ep =>
      obtain ⟨pe₀, st₀⟩ := ep
      simp only [runT, hg, hp] at h
      injection h with h1 h2
      injection h1 with h3
      injection h3 with h4 h5
      subst h4
      subst h2
      obtain ⟨secs, hsecs, _⟩ := (generate_sections_ok ports (initState theme) s₁ hg).1
      obtain ⟨e, he⟩ := process_section_error_upstream ports s₁ secs pe₀ st₀ hsecs hp
      refine ⟨⟨e, he⟩, ?_, fun st₁ hok hex => rfl⟩
      rintro ⟨e', s', hge⟩
      exact Except.noConfusion hge
    | ok s₂ =>
      cases hc : compile_report ports s₂ with
      | error ep =>
        obtain ⟨pe₀, st₀⟩ := ep
        simp only [runT, hg, hp, hc] at h
        injection h with h1 h2
        injection h1 with h3
        injection h3 with h4 h5
        subst h4
        subst h2
        obtain ⟨secs', sm, rf, hsec1, hsm, hrf, hsp, htp, hk, hn, hfs⟩ :=
          process_section_ok ports s₁ s₂ hp
        obtain ⟨e, he⟩ := compile_report_error_upstream ports s₂ sm pe₀ st₀ hsm hc
        refine ⟨⟨e, he⟩, ?_, ?_⟩
        · rintro ⟨e', s', hge⟩
          exact Except.noConfusion hge
        · intro st₁ hok hex
          have h6 : s₁ = st₁ := Except.ok.inj hok
          subst h6
          obtain ⟨e', s', hpe⟩ := hex
          exact Except.noConfusion (hpe.symm.trans hp)
      | ok s₃ =>
        simp only [runT, hg, hp, hc] at h
        injection h with h1 h2
        cases h1

/-- Witness for C3: ports that fail on every call make the run fail at
the planner, with only the planner in the trace. -/
theorem run_failure_propagation_witness :
    (∃ e, PErr.upstream { msg := "boom" } = PErr.upstream e) ∧
    ((∃ e s, generate_sections failPorts (initState "t") = Except.error (e, s)) →
      ([((StageName.planner : StageName), initState "t")].map Prod.fst)
        = [StageName.planner]) ∧
    (∀ st₁, generate_sections failPorts (initState "t") = Except.ok st₁ →
      (∃ e s, process_section failPorts st₁ = Except.error (e, s)) →
      ([((StageName.planner : StageName), initState "t")].map Prod.fst)
        = [StageName.planner, StageName.researcher]) :=
  run_failure_propagation failPorts "t" (PErr.upstream { msg := "boom" })
    (initState "t") [(StageName.planner, initState "t")] rfl

/-- Claim C7: the pipeline is a fixed chain — the trace of entered
stages is always an in-order prefix of planner, researcher, compiler
(no stage skipped, repeated or reordered), a successful run enters all
three, the researcher is only ever entered with a non-empty planned
section list, and the compiler is only ever entered with `summaries`
and `references` fully populated over the planned sections. -/
theorem pipeline_ordering (ports : Ports) (theme : String) :
    ((runT ports theme).snd.map Prod.fst = [StageName.planner] ∨
     (runT ports theme).snd.map Prod.fst = [StageName.planner, StageName.researcher] ∨
     (runT ports theme).snd.map Prod.fst
       = [StageName.planner, StageName.researcher, StageName.compiler]) ∧
    (∀ stf, (runT ports theme).fst = Except.ok stf →
      (runT ports theme).snd.map Prod.fst
        = [StageName.planner, StageName.researcher, StageName.compiler]) ∧
    (∀ st, (StageName.researcher, st) ∈ (runT ports theme).snd →
      ∃ secs, st.sections = some secs ∧ secs ≠ []) ∧
    (∀ st, (StageName.compiler, st) ∈ (runT ports theme).snd →
      ∃ secs sm rf, st.sections = some secs ∧ st.summaries = some sm ∧
        st.references = some rf ∧ dkeys sm = dkeys rf ∧
        (dkeys sm).toFinset = secs.toFinset) := by
  cases hg : generate_sections ports (initState theme) with
  | error ep =>
    have hrt : runT ports theme = (Except.error ep, [(StageName.planner, initState theme)]) := by
      simp only [runT, hg]
    rw [hrt]
    refine ⟨Or.inl rfl, ?_, ?_, ?_⟩
    · intro stf hf
      simp at hf
    · intro st hmem
      simp at hmem
    · intro st hmem
      simp at hmem
  | ok s₁ =>
    obtain ⟨⟨secs, hsec, hnesec⟩, _, _, _⟩ := generate_sections_ok ports (initState theme) s₁ hg
    cases hp : process_section ports s₁ with
    | error ep =>
      have hrt : runT ports theme =
          (Except.error ep,
           [(StageName.planner, initState theme), (StageName.researcher, s₁)]) := by
        simp only [runT, hg, hp]
      rw [hrt]
      refine ⟨Or.inr (Or.inl rfl), ?_, ?_, ?_⟩
      · intro stf hf
        simp at hf
      · intro st hmem
        simp at hmem
        subst hmem
        exact ⟨secs, hsec, hnesec⟩
      · intro st hmem
        simp at hmem
    | ok s₂ =>
      obtain ⟨secs', sm, rf, hsec1, hsm, hrf, hsp, _, hk, _, hfs⟩ :=
        process_section_ok ports s₁ s₂ hp
      have hsec2 : s₂.sections = some secs' := by rw [hsp, hsec1]
      cases hc : compile_report ports s₂ with
      | error ep =>
        have hrt : runT ports theme =
            (Except.error ep,
             [(StageName.planner, initState theme), (StageName.researcher, s₁),
              (StageName.compiler, s₂)]) := by
          simp only [runT, hg, hp, hc]
        rw [hrt]
        refine ⟨Or.inr (Or.inr rfl), ?_, ?_, ?_⟩
        · intro stf hf
          simp at hf
        · intro st hmem
          simp at hmem
          subst hmem
          exact ⟨secs, hsec, hnesec⟩
        · intro st hmem
          simp at hmem
          subst hmem
          exact ⟨secs', sm, rf, hsec2, hsm, hrf, hk, hfs⟩
      | ok s₃ =>
        have hrt : runT ports theme =
            (Except.ok s₃,
             [(StageName.planner, initState theme), (StageName.researcher, s₁),
              (StageName.compiler, s₂)]) := by
          simp only [runT, hg, hp, hc]
        rw [hrt]
        refine ⟨Or.inr (Or.inr rfl), fun stf hf => rfl, ?_, ?_⟩
        · intro st hmem
          simp at hmem
          subst hmem
          exact ⟨secs, hsec, hnesec⟩
        · intro st hmem
          simp at hmem
          subst hmem
          exact ⟨secs', sm, rf, hsec2, hsm, hrf, hk, hfs⟩

/-- Witness for C7: a happy-path run enters all three stages in order. -/
theorem pipeline_ordering_witness :
    (runT (constPorts "1. A") "t").snd.map Prod.fst
      = [StageName.planner, StageName.researcher, StageName.compiler] :=
  (pipeline_ordering (constPorts "1. A") "t").2.1 happyOut rfl
